import Mathlib

/-!
Verification of the frustum-building OBJ mesh generator
(`src/CG2/obj_generator.js`).

The generator is a single routine `main` that
* parses four CLI arguments (sides, h, r1, r2) with JS `parseInt` /
  `parseFloat` semantics and default values 8, 6.0, 1.0, 0.8;
* validates `sides < 3 || sides > 36 || isNaN(sides) || h <= 0 || r1 <= 0
  || r2 <= 0` and returns early (no file) on failure;
* builds the vertex list (interleaved bottom/top, then reorganized to
  bottom-ring, top-ring, two centers), the normal list (side normals,
  then per-face roof normals (0,1,0), then per-face floor normals
  (0,-1,0)) and the face list (2·sides side triangles, sides roof
  triangles, sides floor triangles);
* serializes everything into an OBJ file whose header states the three
  list lengths.

Geometry is embedded over ℝ; the textual 4-decimal formatting of the
output lines is not modelled (lines are represented by the geometric
records they print).  Index bookkeeping (face records) is in ℕ and fully
executable, as is the argument-parsing/validation layer (over ℤ and ℚ).
-/

open Real List

/-- A 3D vector, as produced by `V3.create`. -/
structure Vec3 where
  x : ℝ
  y : ℝ
  z : ℝ

instance : Inhabited Vec3 := ⟨⟨0, 0, 0⟩⟩

namespace V3

/-- Modelled from the spec: `V3.js` is required by the generator but absent
from the sources; `create(x, y, z)` constructs a vector from three scalars
(spec §4.1). -/
def create (x y z : ℝ) : Vec3 := ⟨x, y, z⟩

/-- Modelled from the spec: component-wise `a − b` (spec §4.1). -/
def subtract (a b : Vec3) : Vec3 := ⟨a.x - b.x, a.y - b.y, a.z - b.z⟩

/-- Modelled from the spec: right-handed cross product
`(a.y·b.z − a.z·b.y, a.z·b.x − a.x·b.z, a.x·b.y − a.y·b.x)` (spec §4.1). -/
def cross (a b : Vec3) : Vec3 :=
  ⟨a.y * b.z - a.z * b.y, a.z * b.x - a.x * b.z, a.x * b.y - a.y * b.x⟩

/-- Euclidean magnitude of a vector. -/
noncomputable def magnitude (v : Vec3) : ℝ :=
  Real.sqrt (v.x ^ 2 + v.y ^ 2 + v.z ^ 2)

/-- Modelled from the spec: `normalize` divides each component by the
Euclidean magnitude (spec §4.1). -/
noncomputable def normalize (v : Vec3) : Vec3 :=
  ⟨v.x / magnitude v, v.y / magnitude v, v.z / magnitude v⟩

end V3

namespace ObjGen

/-- The loop angle `(i / sides) * 2 * Math.PI` (obj_generator.js line 40). -/
noncomputable def angulo (sides i : ℕ) : ℝ := (i : ℝ) / (sides : ℝ) * 2 * π

/-- Bottom-ring vertex `i`: `(r1·cos angulo, 0, r1·sin angulo)`
(obj_generator.js lines 44-47). -/
noncomputable def bottomVertex (sides : ℕ) (r1 : ℝ) (i : ℕ) : Vec3 :=
  ⟨r1 * Real.cos (angulo sides i), 0, r1 * Real.sin (angulo sides i)⟩

/-- Top-ring vertex `i`: `(r2·cos angulo, h, r2·sin angulo)`
(obj_generator.js lines 50-53). -/
noncomputable def topVertex (sides : ℕ) (h r2 : ℝ) (i : ℕ) : Vec3 :=
  ⟨r2 * Real.cos (angulo sides i), h, r2 * Real.sin (angulo sides i)⟩

/-- The vertex list `v` as first generated: for each `i` the loop pushes the
bottom vertex then the top vertex (obj_generator.js lines 39-55). -/
noncomputable def vInterleaved (sides : ℕ) (h r1 r2 : ℝ) : List Vec3 :=
  (List.range sides).flatMap fun i => [bottomVertex sides r1 i, topVertex sides h r2 i]

/-- Bottom-center vertex index `2 * sides + 1` (1-based). -/
def centerBotIndex (sides : ℕ) : ℕ := 2 * sides + 1

/-- Top-center vertex index `2 * sides + 2` (1-based). -/
def centerTopIndex (sides : ℕ) : ℕ := 2 * sides + 2

/-- Reorganized vertex list: first pass copies `v[i*2]` (bottoms), second pass
`v[i*2+1]` (tops), then the two center vertices `(0,0,0)` and `(0,h,0)`
are pushed (obj_generator.js lines 57-71). -/
noncomputable def vReorganized (sides : ℕ) (h r1 r2 : ℝ) : List Vec3 :=
  ((List.range sides).map fun i => (vInterleaved sides h r1 r2).getD (i * 2) default)
    ++ ((List.range sides).map fun i => (vInterleaved sides h r1 r2).getD (i * 2 + 1) default)
    ++ [⟨0, 0, 0⟩, ⟨0, h, 0⟩]

/-- Side-face normal for position `i`:
`normalize(cross(Ti − Bi, Bj − Bi))` with `j = (i+1) % sides`
(obj_generator.js lines 73-88). -/
noncomputable def sideNormal (sides : ℕ) (h r1 r2 : ℝ) (i : ℕ) : Vec3 :=
  V3.normalize (V3.cross
    (V3.subtract (topVertex sides h r2 i) (bottomVertex sides r1 i))
    (V3.subtract (bottomVertex sides r1 ((i + 1) % sides)) (bottomVertex sides r1 i)))

/-- The `sides` side normals pushed by the first normal loop. -/
noncomputable def vnSide (sides : ℕ) (h r1 r2 : ℝ) : List Vec3 :=
  (List.range sides).map (sideNormal sides h r1 r2)

/-- The `sides` roof normals, one fresh `(0,1,0)` pushed per roof face
(obj_generator.js line 113). -/
def vnRoof (sides : ℕ) : List Vec3 := (List.range sides).map fun _ => ⟨0, 1, 0⟩

/-- The `sides` floor normals, one fresh `(0,-1,0)` pushed per floor face
(obj_generator.js line 125). -/
def vnFloor (sides : ℕ) : List Vec3 := (List.range sides).map fun _ => ⟨0, -1, 0⟩

/-- The complete normal list `vn` in push order: side normals, then roof
normals, then floor normals. -/
noncomputable def vnList (sides : ℕ) (h r1 r2 : ℝ) : List Vec3 :=
  vnSide sides h r1 r2 ++ vnRoof sides ++ vnFloor sides

/-- One OBJ face line `f a.1//a.2 b.1//b.2 c.1//c.2`: three
(vertex index, normal index) pairs, 1-based. -/
structure FaceRecord where
  a : ℕ × ℕ
  b : ℕ × ℕ
  c : ℕ × ℕ
deriving DecidableEq

instance : Inhabited FaceRecord := ⟨⟨(0, 0), (0, 0), (0, 0)⟩⟩

/-- First side triangle for position `i`: `f viB//vn_idx viT//vn_idx
vjB//vn_idx` with `viB = 1+i`, `viT = sides+1+i`, `vjB = 1+j`,
`j = (i+1) % sides`, `vn_idx = 1+i` (obj_generator.js line 103). -/
def sideFace1 (sides i : ℕ) : FaceRecord :=
  ⟨(1 + i, 1 + i), (sides + 1 + i, 1 + i), (1 + (i + 1) % sides, 1 + i)⟩

/-- Second side triangle for position `i`: `f vjB//vn_idx viT//vn_idx
vjT//vn_idx` with `vjT = sides+1+j` (obj_generator.js line 106). -/
def sideFace2 (sides i : ℕ) : FaceRecord :=
  ⟨(1 + (i + 1) % sides, 1 + i), (sides + 1 + i, 1 + i),
   (sides + 1 + (i + 1) % sides, 1 + i)⟩

/-- Side faces: the loop pushes the two triangles per position
(obj_generator.js lines 91-107). -/
def sideFaces (sides : ℕ) : List FaceRecord :=
  (List.range sides).flatMap fun i => [sideFace1 sides i, sideFace2 sides i]

/-- Roof triangle for position `i`: at iteration `i` the loop pushes a
fresh normal, so `vn_idx = vn.length = sides + i + 1`, and emits
`(centerTopIndex, next, current)` with `current = sides+1+i`,
`next = sides+1+((i+1) % sides)` (obj_generator.js lines 109-119). -/
def roofFace (sides i : ℕ) : FaceRecord :=
  ⟨(centerTopIndex sides, sides + i + 1),
   (sides + 1 + (i + 1) % sides, sides + i + 1),
   (sides + 1 + i, sides + i + 1)⟩

/-- The `sides` roof triangles in loop order. -/
def roofFaces (sides : ℕ) : List FaceRecord :=
  (List.range sides).map (roofFace sides)

/-- Floor triangle for position `i`: at iteration `i` the loop pushes a
fresh normal, so `vn_idx = vn.length = 2·sides + i + 1`, and emits
`(centerBotIndex, current, next)` with `current = 1+i`,
`next = 1+((i+1) % sides)` (obj_generator.js lines 121-133). -/
def floorFace (sides i : ℕ) : FaceRecord :=
  ⟨(centerBotIndex sides, 2 * sides + i + 1), (1 + i, 2 * sides + i + 1),
   (1 + (i + 1) % sides, 2 * sides + i + 1)⟩

/-- The `sides` floor triangles in loop order. -/
def floorFaces (sides : ℕ) : List FaceRecord :=
  (List.range sides).map (floorFace sides)

/-- The complete face list `f` in push order. -/
def fList (sides : ℕ) : List FaceRecord :=
  sideFaces sides ++ roofFaces sides ++ floorFaces sides

/-- All three vertex indices of a face lie in `[1, 2·sides+2]` and all
three normal indices in `[1, 3·sides]`. -/
abbrev faceInBounds (sides : ℕ) (f : FaceRecord) : Prop :=
  (1 ≤ f.a.1 ∧ f.a.1 ≤ 2 * sides + 2) ∧ (1 ≤ f.b.1 ∧ f.b.1 ≤ 2 * sides + 2) ∧
  (1 ≤ f.c.1 ∧ f.c.1 ≤ 2 * sides + 2) ∧ (1 ≤ f.a.2 ∧ f.a.2 ≤ 3 * sides) ∧
  (1 ≤ f.b.2 ∧ f.b.2 ≤ 3 * sides) ∧ (1 ≤ f.c.2 ∧ f.c.2 ≤ 3 * sides)

/-- The pure generation result: vertices, normals and faces for one
parameter set. -/
noncomputable def generate (sides : ℕ) (h r1 r2 : ℝ) :
    List Vec3 × List Vec3 × List FaceRecord :=
  (vReorganized sides h r1 r2, vnList sides h r1 r2, fList sides)

/-- The serialized OBJ file: the header states the three list lengths
(obj_generator.js lines 136-142) and the body holds one line per vertex,
normal and face (line 145). -/
structure ObjFile where
  headerVertexCount : ℕ
  headerNormalCount : ℕ
  headerFaceCount : ℕ
  vertexLines : List Vec3
  normalLines : List Vec3
  faceLines : List FaceRecord

/-- Assembly of the written OBJ file from a parameter set: the header
counts are `vReorganized.length`, `vn.length`, `f.length` and the body is
those same three lists (obj_generator.js lines 136-145). -/
noncomputable def writeObj (sides : ℕ) (h r1 r2 : ℝ) : ObjFile :=
  { headerVertexCount := (vReorganized sides h r1 r2).length
    headerNormalCount := (vnList sides h r1 r2).length
    headerFaceCount := (fList sides).length
    vertexLines := vReorganized sides h r1 r2
    normalLines := vnList sides h r1 r2
    faceLines := fList sides }

end ObjGen

namespace Cli

end Cli

/-! ### List helper lemmas -/

section ListLemmas

variable {α : Type*}

lemma length_flatMap_pair (f g : ℕ → α) (n : ℕ) :
    ((List.range n).flatMap fun i => [f i, g i]).length = 2 * n := by
  induction n with
  | zero => simp
  | succ n ih =>
    rw [List.range_succ, List.flatMap_append, List.length_append, ih]
    simp
    omega

lemma getD_flatMap_pair_even (f g : ℕ → α) (d : α) {i n : ℕ} (hi : i < n) :
    ((List.range n).flatMap fun i => [f i, g i]).getD (i * 2) d = f i := by
  induction n with
  | zero => omega
  | succ n ih =>
    rw [List.range_succ, List.flatMap_append]
    rcases Nat.lt_or_ge i n with hn | hn
    · rw [List.getD_append _ _ _ _ (by rw [length_flatMap_pair]; omega)]
      exact ih hn
    · have hin : i = n := by omega
      subst hin
      rw [List.getD_append_right _ _ _ _ (by rw [length_flatMap_pair]; omega)]
      rw [length_flatMap_pair]
      simp [Nat.mul_comm]

lemma getD_flatMap_pair_odd (f g : ℕ → α) (d : α) {i n : ℕ} (hi : i < n) :
    ((List.range n).flatMap fun i => [f i, g i]).getD (i * 2 + 1) d = g i := by
  induction n with
  | zero => omega
  | succ n ih =>
    rw [List.range_succ, List.flatMap_append]
    rcases Nat.lt_or_ge i n with hn | hn
    · rw [List.getD_append _ _ _ _ (by rw [length_flatMap_pair]; omega)]
      exact ih hn
    · have hin : i = n := by omega
      subst hin
      rw [List.getD_append_right _ _ _ _ (by rw [length_flatMap_pair]; omega)]
      rw [length_flatMap_pair]
      have h1 : i * 2 + 1 - 2 * i = 1 := by omega
      rw [h1]
      simp

lemma getD_map_range (f : ℕ → α) (d : α) {i n : ℕ} (hi : i < n) :
    ((List.range n).map f).getD i d = f i := by
  rw [List.getD_eq_getElem _ _ (by simpa using hi)]
  simp

end ListLemmas

/-! ### Trigonometric helper lemmas -/

namespace ObjGen

lemma angulo_nonneg (sides i : ℕ) : 0 ≤ angulo sides i := by
  unfold angulo
  have hpi := Real.pi_pos
  positivity

lemma angulo_lt_two_pi {sides i : ℕ} (hs : 0 < sides) (hi : i < sides) :
    angulo sides i < 2 * π := by
  unfold angulo
  have hpi := Real.pi_pos
  have hslt : (i : ℝ) / (sides : ℝ) < 1 := by
    rw [div_lt_one (by exact_mod_cast hs)]
    exact_mod_cast hi
  nlinarith

lemma cos_sin_inj {θ φ : ℝ} (h1 : 0 ≤ θ) (h2 : θ < 2 * π) (h3 : 0 ≤ φ)
    (h4 : φ < 2 * π) (hc : Real.cos θ = Real.cos φ)
    (hs : Real.sin θ = Real.sin φ) : θ = φ := by
  have hone : Real.cos (θ - φ) = 1 := by
    rw [Real.cos_sub, hc, hs]
    have := Real.sin_sq_add_cos_sq φ
    nlinarith
  have := (Real.cos_eq_one_iff_of_lt_of_lt (by linarith) (by linarith)).1 hone
  linarith

lemma angulo_inj {sides i j : ℕ} (hs : 0 < sides) (hi : i < sides)
    (hj : j < sides) (hij : angulo sides i = angulo sides j) : i = j := by
  unfold angulo at hij
  have hpi := Real.pi_ne_zero
  have hsne : (sides : ℝ) ≠ 0 := by exact_mod_cast hs.ne.symm
  have : (i : ℝ) = (j : ℝ) := by
    field_simp at hij
    rcases hij with hij | hij
    · exact_mod_cast hij
    · exact absurd hij hpi
  exact_mod_cast this

/-- The next ring position `(i+1) % sides` is distinct from `i`
(needs `sides ≥ 2`; we use `sides ≥ 3`). -/
lemma next_ne {sides i : ℕ} (hs : 3 ≤ sides) (hi : i < sides) :
    (i + 1) % sides ≠ i := by
  rcases Nat.lt_or_ge (i + 1) sides with hlt | hge
  · rw [Nat.mod_eq_of_lt hlt]
    omega
  · have hi1 : i + 1 = sides := by omega
    rw [hi1, Nat.mod_self]
    omega

lemma next_lt {sides i : ℕ} (hs : 0 < sides) : (i + 1) % sides < sides :=
  Nat.mod_lt _ hs

/-- Consecutive ring positions give distinct points on the circle: the
cosine and sine pairs cannot both agree. -/
lemma ring_step_ne {sides i : ℕ} (hs : 3 ≤ sides) (hi : i < sides) :
    ¬(Real.cos (angulo sides ((i + 1) % sides)) = Real.cos (angulo sides i) ∧
      Real.sin (angulo sides ((i + 1) % sides)) = Real.sin (angulo sides i)) := by
  rintro ⟨hc, hsin⟩
  have h0 : 0 < sides := by omega
  have : (i + 1) % sides = i :=
    angulo_inj h0 (next_lt h0) hi
      (cos_sin_inj (angulo_nonneg _ _) (angulo_lt_two_pi h0 (next_lt h0))
        (angulo_nonneg _ _) (angulo_lt_two_pi h0 hi) hc hsin)
  exact next_ne hs hi this

end ObjGen

/-! ### Geometric helper lemmas -/

namespace ObjGen

lemma magnitude_normalize_eq_one (v : Vec3)
    (hv : ¬(v.x = 0 ∧ v.y = 0 ∧ v.z = 0)) :
    V3.magnitude (V3.normalize v) = 1 := by
  obtain ⟨x, y, z⟩ := v
  simp only at hv
  have hS : 0 < x ^ 2 + y ^ 2 + z ^ 2 := by
    rcases not_and_or.1 hv with h | h'
    · nlinarith [pow_two_pos_of_ne_zero h, sq_nonneg y, sq_nonneg z]
    · rcases not_and_or.1 h' with h | h
      · nlinarith [pow_two_pos_of_ne_zero h, sq_nonneg x, sq_nonneg z]
      · nlinarith [pow_two_pos_of_ne_zero h, sq_nonneg x, sq_nonneg y]
  unfold V3.normalize V3.magnitude
  simp only
  rw [div_pow, div_pow, div_pow, div_add_div_same, div_add_div_same,
    Real.sq_sqrt hS.le, div_self hS.ne', Real.sqrt_one]

/-- The cross product defining a side normal is never the zero vector for
valid parameters. -/
lemma sideCross_ne_zero {sides i : ℕ} (h r1 r2 : ℝ) (hs : 3 ≤ sides)
    (hi : i < sides) (hh : 0 < h) (hr1 : 0 < r1) :
    ¬((V3.cross (V3.subtract (topVertex sides h r2 i) (bottomVertex sides r1 i))
          (V3.subtract (bottomVertex sides r1 ((i + 1) % sides))
            (bottomVertex sides r1 i))).x = 0 ∧
      (V3.cross (V3.subtract (topVertex sides h r2 i) (bottomVertex sides r1 i))
          (V3.subtract (bottomVertex sides r1 ((i + 1) % sides))
            (bottomVertex sides r1 i))).y = 0 ∧
      (V3.cross (V3.subtract (topVertex sides h r2 i) (bottomVertex sides r1 i))
          (V3.subtract (bottomVertex sides r1 ((i + 1) % sides))
            (bottomVertex sides r1 i))).z = 0) := by
  rintro ⟨hx, -, hz⟩
  simp only [V3.cross, V3.subtract, topVertex, bottomVertex, sub_self, mul_zero,
    sub_zero, zero_sub, neg_eq_zero] at hx hz
  apply ring_step_ne hs hi
  constructor
  · rcases mul_eq_zero.1 hz with h0 | h0
    · exact absurd h0 hh.ne'
    · exact mul_left_cancel₀ hr1.ne' (sub_eq_zero.1 h0)
  · rcases mul_eq_zero.1 hx with h0 | h0
    · exact absurd h0 hh.ne'
    · exact mul_left_cancel₀ hr1.ne' (sub_eq_zero.1 h0)

/-- Every side normal is a unit vector for valid parameters. -/
lemma sideNormal_unit {sides i : ℕ} {h r1 r2 : ℝ} (hs : 3 ≤ sides)
    (hi : i < sides) (hh : 0 < h) (hr1 : 0 < r1) :
    V3.magnitude (sideNormal sides h r1 r2 i) = 1 := by
  unfold sideNormal
  exact magnitude_normalize_eq_one _ (sideCross_ne_zero h r1 r2 hs hi hh hr1)

/-! ### Structural lemmas about the generated lists -/

/-- The two-pass reorganization recovers the bottom ring, then the top
ring, then the two centers. -/
lemma vReorganized_eq (sides : ℕ) (h r1 r2 : ℝ) :
    vReorganized sides h r1 r2 =
      ((List.range sides).map (bottomVertex sides r1))
        ++ ((List.range sides).map (topVertex sides h r2))
        ++ [⟨0, 0, 0⟩, ⟨0, h, 0⟩] := by
  unfold vReorganized vInterleaved
  have h1 : ((List.range sides).map fun i =>
      ((List.range sides).flatMap fun i =>
        [bottomVertex sides r1 i, topVertex sides h r2 i]).getD (i * 2) default)
      = (List.range sides).map (bottomVertex sides r1) :=
    List.map_congr_left fun i hi =>
      getD_flatMap_pair_even _ _ _ (List.mem_range.1 hi)
  have h2 : ((List.range sides).map fun i =>
      ((List.range sides).flatMap fun i =>
        [bottomVertex sides r1 i, topVertex sides h r2 i]).getD (i * 2 + 1) default)
      = (List.range sides).map (topVertex sides h r2) :=
    List.map_congr_left fun i hi =>
      getD_flatMap_pair_odd _ _ _ (List.mem_range.1 hi)
  rw [h1, h2]

lemma vReorganized_length (sides : ℕ) (h r1 r2 : ℝ) :
    (vReorganized sides h r1 r2).length = 2 * sides + 2 := by
  rw [vReorganized_eq]
  simp
  omega

lemma vnSide_length (sides : ℕ) (h r1 r2 : ℝ) :
    (vnSide sides h r1 r2).length = sides := by
  unfold vnSide
  simp

lemma vnRoof_length (sides : ℕ) : (vnRoof sides).length = sides := by
  unfold vnRoof
  simp

lemma vnFloor_length (sides : ℕ) : (vnFloor sides).length = sides := by
  unfold vnFloor
  simp

lemma vnList_length (sides : ℕ) (h r1 r2 : ℝ) :
    (vnList sides h r1 r2).length = 3 * sides := by
  unfold vnList
  rw [List.length_append, List.length_append, vnSide_length, vnRoof_length,
    vnFloor_length]
  omega

lemma sideFaces_length (sides : ℕ) : (sideFaces sides).length = 2 * sides := by
  unfold sideFaces
  exact length_flatMap_pair _ _ _

lemma roofFaces_length (sides : ℕ) : (roofFaces sides).length = sides := by
  unfold roofFaces
  simp

lemma floorFaces_length (sides : ℕ) : (floorFaces sides).length = sides := by
  unfold floorFaces
  simp

lemma fList_length (sides : ℕ) : (fList sides).length = 4 * sides := by
  unfold fList
  rw [List.length_append, List.length_append, sideFaces_length,
    roofFaces_length, floorFaces_length]
  omega

/-- Entry `i` (0-based) of the normal list is the `i`-th side normal. -/
lemma vnList_getD_side {sides i : ℕ} (h r1 r2 : ℝ) (hi : i < sides) :
    (vnList sides h r1 r2).getD i default = sideNormal sides h r1 r2 i := by
  unfold vnList
  rw [List.getD_append _ _ _ _ (by rw [List.length_append, vnSide_length, vnRoof_length]; omega)]
  rw [List.getD_append _ _ _ _ (by rw [vnSide_length]; omega)]
  exact getD_map_range _ _ hi

/-- Entry `sides + i` (0-based) of the normal list is the `i`-th roof
normal `(0,1,0)`. -/
lemma vnList_getD_roof {sides i : ℕ} (h r1 r2 : ℝ) (hi : i < sides) :
    (vnList sides h r1 r2).getD (sides + i) default = ⟨0, 1, 0⟩ := by
  unfold vnList
  rw [List.getD_append _ _ _ _
    (by rw [List.length_append, vnSide_length, vnRoof_length]; omega)]
  rw [List.getD_append_right _ _ _ _ (by rw [vnSide_length]; omega)]
  rw [vnSide_length]
  have hidx : sides + i - sides = i := by omega
  rw [hidx]
  exact getD_map_range _ _ hi

/-- Entry `2·sides + i` (0-based) of the normal list is the `i`-th floor
normal `(0,-1,0)`. -/
lemma vnList_getD_floor {sides i : ℕ} (h r1 r2 : ℝ) (hi : i < sides) :
    (vnList sides h r1 r2).getD (2 * sides + i) default = ⟨0, -1, 0⟩ := by
  unfold vnList
  rw [List.getD_append_right _ _ _ _
    (by rw [List.length_append, vnSide_length, vnRoof_length]; omega)]
  rw [List.length_append, vnSide_length, vnRoof_length]
  have hidx : 2 * sides + i - (sides + sides) = i := by omega
  rw [hidx]
  exact getD_map_range _ _ hi

/-- Entry `i*2` (0-based) of the face list is the first side triangle of
position `i`. -/
lemma fList_getD_side1 {sides i : ℕ} (hi : i < sides) :
    (fList sides).getD (i * 2) default = sideFace1 sides i := by
  unfold fList
  rw [List.getD_append _ _ _ _
    (by rw [List.length_append, sideFaces_length, roofFaces_length]; omega)]
  rw [List.getD_append _ _ _ _ (by rw [sideFaces_length]; omega)]
  unfold sideFaces
  exact getD_flatMap_pair_even _ _ _ hi

/-- Entry `i*2 + 1` (0-based) of the face list is the second side triangle
of position `i`. -/
lemma fList_getD_side2 {sides i : ℕ} (hi : i < sides) :
    (fList sides).getD (i * 2 + 1) default = sideFace2 sides i := by
  unfold fList
  rw [List.getD_append _ _ _ _
    (by rw [List.length_append, sideFaces_length, roofFaces_length]; omega)]
  rw [List.getD_append _ _ _ _ (by rw [sideFaces_length]; omega)]
  unfold sideFaces
  exact getD_flatMap_pair_odd _ _ _ hi

/-- Entry `2·sides + i` (0-based) of the face list is the `i`-th roof
triangle. -/
lemma fList_getD_roof {sides i : ℕ} (hi : i < sides) :
    (fList sides).getD (2 * sides + i) default = roofFace sides i := by
  unfold fList
  rw [List.getD_append _ _ _ _
    (by rw [List.length_append, sideFaces_length, roofFaces_length]; omega)]
  rw [List.getD_append_right _ _ _ _ (by rw [sideFaces_length]; omega)]
  rw [sideFaces_length]
  have hidx : 2 * sides + i - 2 * sides = i := by omega
  rw [hidx]
  unfold roofFaces
  exact getD_map_range _ _ hi

/-- Entry `3·sides + i` (0-based) of the face list is the `i`-th floor
triangle. -/
lemma fList_getD_floor {sides i : ℕ} (hi : i < sides) :
    (fList sides).getD (3 * sides + i) default = floorFace sides i := by
  unfold fList
  rw [List.getD_append_right _ _ _ _
    (by rw [List.length_append, sideFaces_length, roofFaces_length]; omega)]
  rw [List.length_append, sideFaces_length, roofFaces_length]
  have hidx : 3 * sides + i - (2 * sides + sides) = i := by omega
  rw [hidx]
  unfold floorFaces
  exact getD_map_range _ _ hi

end ObjGen

namespace ObjGen

/-- Entry `i` (0-based, `i < sides`) of the reorganized vertex list is the
`i`-th bottom-ring vertex. -/
lemma vReorganized_getD_bot {sides i : ℕ} (h r1 r2 : ℝ) (hi : i < sides) :
    (vReorganized sides h r1 r2).getD i default = bottomVertex sides r1 i := by
  rw [vReorganized_eq]
  rw [List.getD_append _ _ _ _ (by simp; omega)]
  rw [List.getD_append _ _ _ _ (by simp; omega)]
  exact getD_map_range _ _ hi

/-- Entry `sides + i` (0-based, `i < sides`) of the reorganized vertex
list is the `i`-th top-ring vertex. -/
lemma vReorganized_getD_top {sides i : ℕ} (h r1 r2 : ℝ) (hi : i < sides) :
    (vReorganized sides h r1 r2).getD (sides + i) default = topVertex sides h r2 i := by
  rw [vReorganized_eq]
  rw [List.getD_append _ _ _ _ (by simp; omega)]
  rw [List.getD_append_right _ _ _ _ (by simp)]
  rw [List.length_map, List.length_range]
  have hidx : sides + i - sides = i := by omega
  rw [hidx]
  exact getD_map_range _ _ hi

/-- Entry `2·sides` (0-based) of the reorganized vertex list is the
bottom-center vertex `(0,0,0)`. -/
lemma vReorganized_getD_cbot (sides : ℕ) (h r1 r2 : ℝ) :
    (vReorganized sides h r1 r2).getD (2 * sides) default = ⟨0, 0, 0⟩ := by
  rw [vReorganized_eq]
  rw [List.getD_append_right _ _ _ _ (by simp; omega)]
  have hidx : 2 * sides -
      ((List.range sides).map (bottomVertex sides r1)
        ++ (List.range sides).map (topVertex sides h r2)).length = 0 := by
    simp
    omega
  rw [hidx]
  rfl

/-- Entry `2·sides + 1` (0-based) of the reorganized vertex list is the
top-center vertex `(0,h,0)`. -/
lemma vReorganized_getD_ctop (sides : ℕ) (h r1 r2 : ℝ) :
    (vReorganized sides h r1 r2).getD (2 * sides + 1) default = ⟨0, h, 0⟩ := by
  rw [vReorganized_eq]
  rw [List.getD_append_right _ _ _ _ (by simp; omega)]
  have hidx : 2 * sides + 1 -
      ((List.range sides).map (bottomVertex sides r1)
        ++ (List.range sides).map (topVertex sides h r2)).length = 1 := by
    simp
    omega
  rw [hidx]
  rfl

end ObjGen

/-! ### Claim theorems -/

open ObjGen

/-- C1: for every parameter set with `sides ∈ [3,36]` and positive
`height`, `baseRadius`, `topRadius`, `generate` produces `2·sides+2`
vertices, `3·sides` normals and `4·sides` face records; the normal list is
the `sides` side normals, then the `sides` roof normals, then the `sides`
floor normals; the face list is the `2·sides` side triangles, then the
`sides` roof triangles, then the `sides` floor triangles. -/
theorem generate_counts_and_order (sides : ℕ) (h r1 r2 : ℝ)
    (hs : 3 ≤ sides) (hs36 : sides ≤ 36) (hh : 0 < h) (hr1 : 0 < r1)
    (hr2 : 0 < r2) :
    (vReorganized sides h r1 r2).length = 2 * sides + 2 ∧
    (vnList sides h r1 r2).length = 3 * sides ∧
    (fList sides).length = 4 * sides ∧
    vnList sides h r1 r2 = vnSide sides h r1 r2 ++ vnRoof sides ++ vnFloor sides ∧
    (vnSide sides h r1 r2).length = sides ∧
    (vnRoof sides).length = sides ∧
    (vnFloor sides).length = sides ∧
    fList sides = sideFaces sides ++ roofFaces sides ++ floorFaces sides ∧
    (sideFaces sides).length = 2 * sides ∧
    (roofFaces sides).length = sides ∧
    (floorFaces sides).length = sides :=
  ⟨vReorganized_length sides h r1 r2, vnList_length sides h r1 r2,
   fList_length sides, rfl, vnSide_length sides h r1 r2, vnRoof_length sides,
   vnFloor_length sides, rfl, sideFaces_length sides, roofFaces_length sides,
   floorFaces_length sides⟩

/-- C1 witness: the theorem instantiated at the tool defaults
`sides=8, h=6, r1=1, r2=0.8`. -/
theorem generate_counts_and_order_witness :
    (vReorganized 8 6 1 0.8).length = 2 * 8 + 2 ∧
    (vnList 8 6 1 0.8).length = 3 * 8 ∧
    (fList 8).length = 4 * 8 :=
  have hmain := generate_counts_and_order 8 6 1 0.8 (by norm_num) (by norm_num)
    (by norm_num) (by norm_num) (by norm_num)
  ⟨hmain.1, hmain.2.1, hmain.2.2.1⟩

/-- C3: for every valid parameter set the vertex list is the `sides`
bottom-ring vertices in ring order, then the `sides` top-ring vertices in
the same order, then the bottom-center `(0,0,0)` at 1-based position
`2·sides+1` and the top-center `(0,height,0)` at position `2·sides+2`. -/
theorem vertex_ordering (sides : ℕ) (h r1 r2 : ℝ)
    (hs : 3 ≤ sides) (hs36 : sides ≤ 36) (hh : 0 < h) (hr1 : 0 < r1)
    (hr2 : 0 < r2) :
    vReorganized sides h r1 r2 =
      (List.range sides).map (bottomVertex sides r1)
        ++ (List.range sides).map (topVertex sides h r2)
        ++ [⟨0, 0, 0⟩, ⟨0, h, 0⟩] ∧
    (∀ i, i < sides →
      (vReorganized sides h r1 r2).getD i default = bottomVertex sides r1 i ∧
      (vReorganized sides h r1 r2).getD (sides + i) default = topVertex sides h r2 i) ∧
    (vReorganized sides h r1 r2).getD (centerBotIndex sides - 1) default = ⟨0, 0, 0⟩ ∧
    (vReorganized sides h r1 r2).getD (centerTopIndex sides - 1) default = ⟨0, h, 0⟩ := by
  refine ⟨vReorganized_eq sides h r1 r2, fun i hi =>
    ⟨vReorganized_getD_bot h r1 r2 hi, vReorganized_getD_top h r1 r2 hi⟩, ?_, ?_⟩
  · have hidx : centerBotIndex sides - 1 = 2 * sides := by
      unfold centerBotIndex
      omega
    rw [hidx]
    exact vReorganized_getD_cbot sides h r1 r2
  · have hidx : centerTopIndex sides - 1 = 2 * sides + 1 := by
      unfold centerTopIndex
      omega
    rw [hidx]
    exact vReorganized_getD_ctop sides h r1 r2

/-- C3 witness: the theorem instantiated at `sides=3, h=1, r1=1, r2=1`,
projected to the two center entries. -/
theorem vertex_ordering_witness :
    (vReorganized 3 1 1 1).getD (centerBotIndex 3 - 1) default = ⟨0, 0, 0⟩ ∧
    (vReorganized 3 1 1 1).getD (centerTopIndex 3 - 1) default = ⟨0, 1, 0⟩ :=
  have hmain := vertex_ordering 3 1 1 1 (by norm_num) (by norm_num)
    (by norm_num) (by norm_num) (by norm_num)
  ⟨hmain.2.2.1, hmain.2.2.2⟩

/-- C9: generation is deterministic — two runs of `generate` (and of the
full file assembly `writeObj`) with identical parameters give identical
vertex, normal and face sequences; `generate` is a pure function of its
four parameters. -/
theorem generate_deterministic (sides : ℕ) (h r1 r2 : ℝ) :
    generate sides h r1 r2 = generate sides h r1 r2 ∧
    writeObj sides h r1 r2 = writeObj sides h r1 r2 :=
  ⟨rfl, rfl⟩

/-- C10: the counts declared in the serialized file header equal the
number of vertex, normal and face lines in the body, for every valid
parameter set. -/
theorem header_counts_match (sides : ℕ) (h r1 r2 : ℝ)
    (hs : 3 ≤ sides) (hs36 : sides ≤ 36) (hh : 0 < h) (hr1 : 0 < r1)
    (hr2 : 0 < r2) :
    (writeObj sides h r1 r2).headerVertexCount =
      (writeObj sides h r1 r2).vertexLines.length ∧
    (writeObj sides h r1 r2).headerNormalCount =
      (writeObj sides h r1 r2).normalLines.length ∧
    (writeObj sides h r1 r2).headerFaceCount =
      (writeObj sides h r1 r2).faceLines.length :=
  ⟨rfl, rfl, rfl⟩

/-- C10 witness: the theorem instantiated at the tool defaults. -/
theorem header_counts_match_witness :
    (writeObj 8 6 1 0.8).headerVertexCount =
      (writeObj 8 6 1 0.8).vertexLines.length ∧
    (writeObj 8 6 1 0.8).headerNormalCount =
      (writeObj 8 6 1 0.8).normalLines.length ∧
    (writeObj 8 6 1 0.8).headerFaceCount =
      (writeObj 8 6 1 0.8).faceLines.length :=
  header_counts_match 8 6 1 0.8 (by norm_num) (by norm_num) (by norm_num)
    (by norm_num) (by norm_num)

/-- C4: for every valid parameter set and `i < sides`, with
`j = (i+1) % sides`, the side faces at position `i` are the triangles
`(bottom[i], top[i], bottom[j])` and `(bottom[j], top[i], top[j])`
(1-based vertex indices `1+i`, `sides+1+i`, `1+j`, `sides+1+j`), emitted
in `i`-order at face positions `2i` and `2i+1`, all six index pairs
referencing side normal `i+1`. -/
theorem side_faces_content (sides : ℕ) (h r1 r2 : ℝ)
    (hs : 3 ≤ sides) (hs36 : sides ≤ 36) (hh : 0 < h) (hr1 : 0 < r1)
    (hr2 : 0 < r2) :
    ∀ i, i < sides →
      (fList sides).getD (i * 2) default =
        ⟨(1 + i, 1 + i), (sides + 1 + i, 1 + i), (1 + (i + 1) % sides, 1 + i)⟩ ∧
      (fList sides).getD (i * 2 + 1) default =
        ⟨(1 + (i + 1) % sides, 1 + i), (sides + 1 + i, 1 + i),
         (sides + 1 + (i + 1) % sides, 1 + i)⟩ := by
  intro i hi
  exact ⟨fList_getD_side1 hi, fList_getD_side2 hi⟩

/-- C4 witness: the theorem instantiated at the tool defaults, position 0:
triangles `(1,9,2)` and `(2,9,10)`, all referencing normal 1. -/
theorem side_faces_content_witness :
    (fList 8).getD 0 default = ⟨(1, 1), (9, 1), (2, 1)⟩ ∧
    (fList 8).getD 1 default = ⟨(2, 1), (9, 1), (10, 1)⟩ :=
  side_faces_content 8 6 1 0.8 (by norm_num) (by norm_num) (by norm_num)
    (by norm_num) (by norm_num) 0 (by norm_num)

/-- C5: for every valid parameter set and `i < sides`, with
`next = (i+1) % sides`: the roof triangle at face position `2·sides+i` is
`(top-center, top[next], top[i])` and references normal index `sides+i+1`,
whose list entry is exactly `(0,1,0)`; the floor triangle at position
`3·sides+i` is `(bottom-center, bottom[i], bottom[next])` and references
normal index `2·sides+i+1`, whose entry is exactly `(0,-1,0)`; distinct
roof (resp. floor) faces reference distinct normal indices, and no roof
face shares a normal index with a floor face. -/
theorem roof_floor_content (sides : ℕ) (h r1 r2 : ℝ)
    (hs : 3 ≤ sides) (hs36 : sides ≤ 36) (hh : 0 < h) (hr1 : 0 < r1)
    (hr2 : 0 < r2) :
    ∀ i, i < sides →
      (vnList sides h r1 r2).getD (sides + i) default = ⟨0, 1, 0⟩ ∧
      (fList sides).getD (2 * sides + i) default =
        ⟨(centerTopIndex sides, sides + i + 1),
         (sides + 1 + (i + 1) % sides, sides + i + 1),
         (sides + 1 + i, sides + i + 1)⟩ ∧
      (vnList sides h r1 r2).getD (2 * sides + i) default = ⟨0, -1, 0⟩ ∧
      (fList sides).getD (3 * sides + i) default =
        ⟨(centerBotIndex sides, 2 * sides + i + 1), (1 + i, 2 * sides + i + 1),
         (1 + (i + 1) % sides, 2 * sides + i + 1)⟩ ∧
      (∀ j, j < sides → j ≠ i →
        ((fList sides).getD (2 * sides + i) default).a.2 ≠
          ((fList sides).getD (2 * sides + j) default).a.2 ∧
        ((fList sides).getD (3 * sides + i) default).a.2 ≠
          ((fList sides).getD (3 * sides + j) default).a.2) ∧
      (∀ j, j < sides →
        ((fList sides).getD (2 * sides + i) default).a.2 ≠
          ((fList sides).getD (3 * sides + j) default).a.2) := by
  intro i hi
  refine ⟨vnList_getD_roof h r1 r2 hi, fList_getD_roof hi,
    vnList_getD_floor h r1 r2 hi, fList_getD_floor hi, ?_, ?_⟩
  · intro j hj hne
    constructor
    · rw [fList_getD_roof hi, fList_getD_roof hj]
      unfold roofFace
      dsimp only
      omega
    · rw [fList_getD_floor hi, fList_getD_floor hj]
      unfold floorFace
      dsimp only
      omega
  · intro j hj
    rw [fList_getD_roof hi, fList_getD_floor hj]
    unfold roofFace floorFace
    dsimp only
    omega

/-- C5 witness: the theorem instantiated at the tool defaults, position 0:
roof normal entry 9 (1-based) is `(0,1,0)` and floor normal entry 17 is
`(0,-1,0)`, referenced by the corresponding triangles. -/
theorem roof_floor_content_witness :
    (vnList 8 6 1 0.8).getD 8 default = ⟨0, 1, 0⟩ ∧
    (vnList 8 6 1 0.8).getD 16 default = ⟨0, -1, 0⟩ :=
  have hmain := roof_floor_content 8 6 1 0.8 (by norm_num) (by norm_num)
    (by norm_num) (by norm_num) (by norm_num) 0 (by norm_num)
  ⟨hmain.1, hmain.2.2.1⟩

/-- C6: for every valid parameter set and `i < sides`, with
`j = (i+1) % sides`, the `i`-th side normal equals
`normalize(cross(top[i] − bottom[i], bottom[j] − bottom[i]))` (right-handed
cross product), stored as entry `i` of the normal list, and it has unit
magnitude. -/
theorem side_normal_formula_unit (sides : ℕ) (h r1 r2 : ℝ)
    (hs : 3 ≤ sides) (hs36 : sides ≤ 36) (hh : 0 < h) (hr1 : 0 < r1)
    (hr2 : 0 < r2) :
    ∀ i, i < sides →
      (vnList sides h r1 r2).getD i default =
        V3.normalize (V3.cross
          (V3.subtract (topVertex sides h r2 i) (bottomVertex sides r1 i))
          (V3.subtract (bottomVertex sides r1 ((i + 1) % sides))
            (bottomVertex sides r1 i))) ∧
      V3.magnitude ((vnList sides h r1 r2).getD i default) = 1 := by
  intro i hi
  refine ⟨vnList_getD_side h r1 r2 hi, ?_⟩
  rw [vnList_getD_side h r1 r2 hi]
  exact sideNormal_unit hs hi hh hr1

/-- C6 witness: at the tool defaults the first side normal has unit
magnitude. -/
theorem side_normal_formula_unit_witness :
    V3.magnitude ((vnList 8 6 1 0.8).getD 0 default) = 1 :=
  (side_normal_formula_unit 8 6 1 0.8 (by norm_num) (by norm_num)
    (by norm_num) (by norm_num) (by norm_num) 0 (by norm_num)).2

/-- C7: for every valid parameter set, every emitted face record has all
three vertex indices in `[1, 2·sides+2]` and all three normal indices in
`[1, 3·sides]`. -/
theorem face_indices_in_bounds (sides : ℕ) (h r1 r2 : ℝ)
    (hs : 3 ≤ sides) (hs36 : sides ≤ 36) (hh : 0 < h) (hr1 : 0 < r1)
    (hr2 : 0 < r2) :
    ∀ f ∈ fList sides, faceInBounds sides f := by
  intro f hf
  have hpos : 0 < sides := by omega
  unfold fList at hf
  rcases List.mem_append.1 hf with hf | hf
  · rcases List.mem_append.1 hf with hf | hf
    · unfold sideFaces at hf
      rcases List.mem_flatMap.1 hf with ⟨i, hi, hmem⟩
      have hi' := List.mem_range.1 hi
      have hj : (i + 1) % sides < sides := Nat.mod_lt _ hpos
      simp only [List.mem_cons, List.not_mem_nil, or_false] at hmem
      rcases hmem with rfl | rfl
      · unfold faceInBounds sideFace1
        dsimp only
        omega
      · unfold faceInBounds sideFace2
        dsimp only
        omega
    · rcases List.mem_map.1 hf with ⟨i, hi, rfl⟩
      have hi' := List.mem_range.1 hi
      have hj : (i + 1) % sides < sides := Nat.mod_lt _ hpos
      unfold faceInBounds roofFace centerTopIndex
      dsimp only
      omega
  · rcases List.mem_map.1 hf with ⟨i, hi, rfl⟩
    have hi' := List.mem_range.1 hi
    have hj : (i + 1) % sides < sides := Nat.mod_lt _ hpos
    unfold faceInBounds floorFace centerBotIndex
    dsimp only
    omega

/-- C7 witness: at the tool defaults, the first roof face is in the face
list and its indices are in bounds. -/
theorem face_indices_in_bounds_witness :
    roofFace 8 0 ∈ fList 8 ∧ faceInBounds 8 (roofFace 8 0) :=
  ⟨by decide, face_indices_in_bounds 8 6 1 0.8 (by norm_num) (by norm_num)
    (by norm_num) (by norm_num) (by norm_num) (roofFace 8 0) (by decide)⟩

/-- C8: for every valid parameter set and `i < sides`, with
`angle = (i / sides)·2π`, bottom-ring vertex `i` is
`(baseRadius·cos angle, 0, baseRadius·sin angle)` and top-ring vertex `i`
is `(topRadius·cos angle, height, topRadius·sin angle)`; at the tool
defaults `sides=8, h=6, r1=1, r2=0.8` the first bottom vertex is
`(1, 0, 0)` and the first top vertex is `(0.8, 6, 0)`. -/
theorem ring_vertex_coords (sides : ℕ) (h r1 r2 : ℝ)
    (hs : 3 ≤ sides) (hs36 : sides ≤ 36) (hh : 0 < h) (hr1 : 0 < r1)
    (hr2 : 0 < r2) :
    (∀ i, i < sides →
      (vReorganized sides h r1 r2).getD i default =
        ⟨r1 * Real.cos ((i : ℝ) / (sides : ℝ) * 2 * π), 0,
         r1 * Real.sin ((i : ℝ) / (sides : ℝ) * 2 * π)⟩ ∧
      (vReorganized sides h r1 r2).getD (sides + i) default =
        ⟨r2 * Real.cos ((i : ℝ) / (sides : ℝ) * 2 * π), h,
         r2 * Real.sin ((i : ℝ) / (sides : ℝ) * 2 * π)⟩) ∧
    (vReorganized 8 6 1 0.8).getD 0 default = ⟨1, 0, 0⟩ ∧
    (vReorganized 8 6 1 0.8).getD 8 default = ⟨0.8, 6, 0⟩ := by
  refine ⟨fun i hi =>
    ⟨vReorganized_getD_bot h r1 r2 hi, vReorganized_getD_top h r1 r2 hi⟩, ?_, ?_⟩
  · have h0 : (vReorganized 8 6 1 0.8).getD 0 default = bottomVertex 8 1 0 :=
      @vReorganized_getD_bot 8 0 6 1 0.8 (by norm_num)
    rw [h0]
    unfold bottomVertex angulo
    simp
  · have h0 : (vReorganized 8 6 1 0.8).getD 8 default = topVertex 8 6 0.8 0 :=
      @vReorganized_getD_top 8 0 6 1 0.8 (by norm_num)
    rw [h0]
    unfold topVertex angulo
    simp

/-- C8 witness: the concrete conjuncts of the theorem at the defaults. -/
theorem ring_vertex_coords_witness :
    (vReorganized 8 6 1 0.8).getD 0 default = ⟨1, 0, 0⟩ ∧
    (vReorganized 8 6 1 0.8).getD 8 default = ⟨0.8, 6, 0⟩ :=
  (ring_vertex_coords 8 6 1 0.8 (by norm_num) (by norm_num) (by norm_num)
    (by norm_num) (by norm_num)).2
